import Mathlib

/-!
Verification of the meshtastic-web frontend state-synchronization logic.

This file shallowly embeds the store mutations of
src/frontend/src/store/index.ts, the conversation projection of
src/frontend/src/components/ChatArea.tsx, the optimistic-send logic of the
useSendMessage hook, and the traceroute panel state machine of the
NodeInfoPanel component, and proves the specified properties about them.

Modelling conventions:
- TypeScript optional fields become Option values; none models an absent
  object key (for Node.position the source additionally deletes an
  explicitly null or undefined entry, so none also covers that case).
- JavaScript truthiness tests on numbers and strings are modelled
  explicitly: the number 0 and the empty string are falsy.
- Timestamps are modelled as natural numbers; ISO-8601 strings compare in
  the same order as their epoch values.
- JavaScript object spread of a fully-keyed incoming object over an
  existing record takes every field from the incoming object (message
  events are constructed with all keys present, see useSendMessage);
  spread of a partially-keyed object keeps the fields whose keys are
  absent (node updates, see updateNode).
-/

/-- Delivery-confirmation lifecycle of a message
    (ack_status in the Message type). -/
inductive AckStatus where
  | pending
  | ack
  | implicit_ack
  | nak
  | failed
  | received
  | none
deriving DecidableEq, Repr

/-- A chat message as stored by useMeshStore.  The reactions field is the
    derived emoji-to-senders map; messages entering the store carry an
    empty one. -/
structure Message where
  id : Nat
  packet_id : Option Nat
  sender : String
  receiver : Option String
  channel : Nat
  text : String
  timestamp : Nat
  ack_status : AckStatus
  is_outgoing : Bool
  reply_id : Option Nat
  reactions : List (String × List String)
deriving DecidableEq, Repr

/-- JavaScript truthiness of an optional numeric packet id:
    undefined and 0 are falsy (store/index.ts line 76). -/
def truthy (pid : Option Nat) : Bool :=
  match pid with
  | Option.none => false
  | Option.some n => n != 0

/-- Spread of a fully-keyed incoming message over a stored one
    (store/index.ts line 82): every field comes from the incoming event. -/
def mergeMsg (_old incoming : Message) : Message :=
  { id := incoming.id
    packet_id := incoming.packet_id
    sender := incoming.sender
    receiver := incoming.receiver
    channel := incoming.channel
    text := incoming.text
    timestamp := incoming.timestamp
    ack_status := incoming.ack_status
    is_outgoing := incoming.is_outgoing
    reply_id := incoming.reply_id
    reactions := incoming.reactions }

/-- Replace the first stored message whose packet_id equals the incoming
    message's packet_id (findIndex followed by an in-place spread,
    store/index.ts lines 76-83); none when no stored message matches. -/
def replaceByPid : List Message → Message → Option (List Message)
  | [], _ => Option.none
  | x :: xs, m =>
    if x.packet_id == m.packet_id then Option.some (mergeMsg x m :: xs)
    else
      match replaceByPid xs m with
      | Option.some ys => Option.some (x :: ys)
      | Option.none => Option.none

/-- addMessage of useMeshStore (store/index.ts lines 74-91): merge by
    truthy packet_id, else discard on duplicate id, else append. -/
def addMessage (msgs : List Message) (m : Message) : List Message :=
  match (if truthy m.packet_id then replaceByPid msgs m else Option.none) with
  | Option.some ys => ys
  | Option.none =>
    if msgs.any (fun x => x.id == m.id) then msgs else msgs ++ [m]

/-- updateMessageAck of useMeshStore (store/index.ts lines 93-98). -/
def updateMessageAck (msgs : List Message) (packetId : Nat)
    (st : AckStatus) : List Message :=
  msgs.map (fun m =>
    if m.packet_id == Option.some packetId then { m with ack_status := st }
    else m)

/-- Position report of a node (latitude, longitude, altitude; the claims
    only depend on presence, so coordinates are integers here). -/
structure Position where
  latitude : Int
  longitude : Int
  altitude : Option Int
deriving DecidableEq, Repr

/-- Telemetry pushed independently of position reports. -/
structure DeviceMetrics where
  batteryLevel : Option Nat
  voltage : Option Int
  channelUtilization : Option Int
  airUtilTx : Option Int
deriving DecidableEq, Repr

/-- Display names of a node. -/
structure NodeUser where
  longName : Option String
  shortName : Option String
deriving DecidableEq, Repr

/-- A mesh node record as stored by useMeshStore. -/
structure Node where
  id : String
  num : Nat
  user : Option NodeUser
  position : Option Position
  deviceMetrics : Option DeviceMetrics
  lastHeard : Option Nat
  snr : Option Int
deriving DecidableEq, Repr

/-- Lookup predicate of updateNode (store/index.ts line 56):
    match by id or by num. -/
def nodeMatches (n incoming : Node) : Bool :=
  n.id == incoming.id || n.num == incoming.num

/-- One field of a JavaScript object spread: a key present on the incoming
    partial update overwrites, an absent key keeps the old value. -/
def keepOld {α : Type} (incoming old : Option α) : Option α :=
  match incoming with
  | Option.some v => Option.some v
  | Option.none => old

/-- Spread of a partial node update over the stored record
    (store/index.ts line 64); the incoming position was already
    normalized so that none never overwrites (lines 58-61). -/
def mergeNode (old incoming : Node) : Node :=
  { id := incoming.id
    num := incoming.num
    user := keepOld incoming.user old.user
    position := keepOld incoming.position old.position
    deviceMetrics := keepOld incoming.deviceMetrics old.deviceMetrics
    lastHeard := keepOld incoming.lastHeard old.lastHeard
    snr := keepOld incoming.snr old.snr }

/-- Replace the first matching node, else append
    (findIndex / set / append of store/index.ts lines 54-68). -/
def updateNode : List Node → Node → List Node
  | [], incoming => [incoming]
  | x :: xs, incoming =>
    if nodeMatches x incoming then mergeNode x incoming :: xs
    else x :: updateNode xs incoming

/-- Unread-notification slice of useMeshStore:
    the global counter and the per-conversation map. -/
structure UnreadState where
  unreadCount : Int
  unreadPerChat : List (String × Int)
deriving DecidableEq, Repr

/-- First-match lookup in the per-chat map (JavaScript object access). -/
def lookupChat : List (String × Int) → String → Option Int
  | [], _ => Option.none
  | (k, v) :: rest, key => if k == key then Option.some v else lookupChat rest key

/-- Set a key in the per-chat map: replace the first occurrence in place,
    else append (object spread with a computed key). -/
def setChat : List (String × Int) → String → Int → List (String × Int)
  | [], key, v => [(key, v)]
  | (k, w) :: rest, key, v =>
    if k == key then (key, v) :: rest else (k, w) :: setChat rest key v

/-- Remove a key from the per-chat map (rest-destructuring removal). -/
def removeChat (l : List (String × Int)) (key : String) :
    List (String × Int) :=
  l.filter (fun p => !(p.1 == key))

/-- getUnreadForChat (store/index.ts lines 134-136):
    map value or 0 when absent. -/
def getUnreadForChat (s : UnreadState) (key : String) : Int :=
  match lookupChat s.unreadPerChat key with
  | Option.some v => v
  | Option.none => 0

/-- incrementUnread (store/index.ts line 110). -/
def incrementUnread (s : UnreadState) : UnreadState :=
  { s with unreadCount := s.unreadCount + 1 }

/-- resetUnread (store/index.ts line 111): zero the global counter and
    clear the per-chat map. -/
def resetUnread (_s : UnreadState) : UnreadState :=
  { unreadCount := 0, unreadPerChat := [] }

/-- incrementUnreadForChat (store/index.ts lines 114-124). -/
def incrementUnreadForChat (s : UnreadState) (key : String) : UnreadState :=
  { unreadPerChat := setChat s.unreadPerChat key (getUnreadForChat s key + 1)
    unreadCount := s.unreadCount + 1 }

/-- resetUnreadForChat (store/index.ts lines 125-133): drop the key and
    subtract its count from the global counter, clamped at zero. -/
def resetUnreadForChat (s : UnreadState) (key : String) : UnreadState :=
  { unreadPerChat := removeChat s.unreadPerChat key
    unreadCount := max 0 (s.unreadCount - getUnreadForChat s key) }

/-- The currently projected conversation (ChatTarget). -/
inductive ChatTarget where
  | channel (index : Nat)
  | dm (nodeId : String)
deriving DecidableEq, Repr

/-- JavaScript falsiness of the optional receiver field:
    absent or empty string. -/
def receiverFalsy (r : Option String) : Bool :=
  match r with
  | Option.none => true
  | Option.some s => s == ""

/-- Channel-tab filter predicate (ChatArea.tsx line 72): on this channel
    and receiver falsy or a broadcast sentinel. -/
def channelPred (idx : Nat) (m : Message) : Bool :=
  m.channel == idx &&
    (receiverFalsy m.receiver || m.receiver == Option.some "^all" ||
      m.receiver == Option.some "broadcast")

/-- Direct-message filter predicate (ChatArea.tsx lines 75-78): sender or
    receiver is the peer, and the receiver is truthy and not a broadcast
    sentinel. -/
def dmPred (nodeId : String) (m : Message) : Bool :=
  (m.sender == nodeId || m.receiver == Option.some nodeId) &&
    !(receiverFalsy m.receiver) &&
    m.receiver != Option.some "^all" &&
    m.receiver != Option.some "broadcast"

/-- filteredMessages of ChatArea (lines 68-79) for an active target. -/
def filterMessages (t : ChatTarget) (msgs : List Message) : List Message :=
  match t with
  | ChatTarget.channel idx => msgs.filter (channelPred idx)
  | ChatTarget.dm nodeId => msgs.filter (dmPred nodeId)

/-- Models the character classes of the EMOJI_ONLY_REGEX character
    alternatives (ChatArea.tsx line 84): the principal
    Extended_Pictographic and Emoji_Presentation codepoint ranges. -/
def isEmojiCodepoint (c : Char) : Bool :=
  let n := c.toNat
  (0x00A9 == n) || (0x00AE == n) ||
  (0x203C == n) || (0x2049 == n) || (0x2122 == n) || (0x2139 == n) ||
  (0x2194 <= n && n <= 0x21AA) ||
  (0x231A <= n && n <= 0x231B) || (0x2328 == n) || (0x23CF == n) ||
  (0x23E9 <= n && n <= 0x23F3) || (0x24C2 == n) ||
  (0x25AA <= n && n <= 0x25AB) || (0x25B6 == n) || (0x25C0 == n) ||
  (0x25FB <= n && n <= 0x25FE) ||
  (0x2600 <= n && n <= 0x27BF) ||
  (0x2934 <= n && n <= 0x2935) ||
  (0x2B05 <= n && n <= 0x2B07) || (0x2B1B <= n && n <= 0x2B1C) ||
  (0x2B50 == n) || (0x2B55 == n) ||
  (0x3030 == n) || (0x303D == n) || (0x3297 == n) || (0x3299 == n) ||
  (0x1F000 <= n && n <= 0x1F0FF) ||
  (0x1F300 <= n && n <= 0x1F9FF) ||
  (0x1FA00 <= n && n <= 0x1FBFF)

/-- JavaScript String.prototype.trim: drop leading and trailing
    whitespace. -/
def jsTrim (s : String) : String :=
  String.mk (((s.toList.dropWhile Char.isWhitespace).reverse.dropWhile
    Char.isWhitespace).reverse)

/-- The EMOJI_ONLY_REGEX test on an already-trimmed string: non-empty and
    every codepoint pictographic, emoji-presentation, or whitespace. -/
def isEmojiOnly (s : String) : Bool :=
  !s.toList.isEmpty &&
    s.toList.all (fun c => isEmojiCodepoint c || c.isWhitespace)

/-- First-match lookup in a reactions map. -/
def lookupReaction : List (String × List String) → String →
    Option (List String)
  | [], _ => Option.none
  | (e, ss) :: rest, emoji =>
    if e == emoji then Option.some ss else lookupReaction rest emoji

/-- Attach a sender to an emoji key of a reactions map, creating the key
    if needed and de-duplicating senders (ChatArea.tsx lines 103-114). -/
def addReaction : List (String × List String) → String → String →
    List (String × List String)
  | [], emoji, sender => [(emoji, [sender])]
  | (e, ss) :: rest, emoji, sender =>
    if e == emoji then
      (e, if ss.contains sender then ss else ss ++ [sender]) :: rest
    else (e, ss) :: addReaction rest emoji sender

/-- Record the reaction message m on a retained display message. -/
def attachReaction (m : Message) (target : Message) : Message :=
  { target with
    reactions := addReaction target.reactions (jsTrim m.text) m.sender }

/-- Apply a function to the last element of a list. -/
def updateLast (f : Message → Message) : List Message → List Message
  | [] => []
  | [x] => [f x]
  | x :: y :: xs => x :: updateLast f (y :: xs)

/-- One step of the reaction-folding walk (ChatArea.tsx lines 94-119):
    an emoji-only message with a preceding retained message becomes a
    reaction on that message; every other message is pushed with an empty
    reactions map. -/
def foldStep (acc : List Message) (m : Message) : List Message :=
  if isEmojiOnly (jsTrim m.text) && !acc.isEmpty then
    updateLast (attachReaction m) acc
  else acc ++ [{ m with reactions := [] }]

/-- Stable insertion by timestamp. -/
def sortInsert (m : Message) : List Message → List Message
  | [] => [m]
  | x :: xs =>
    if m.timestamp < x.timestamp then m :: x :: xs else x :: sortInsert m xs

/-- Stable ascending sort by timestamp, the effect of the stable
    JavaScript Array.sort with the numeric-difference comparator
    (ChatArea.tsx lines 90-92). -/
def sortByTimestamp : List Message → List Message
  | [] => []
  | x :: xs => sortInsert x (sortByTimestamp xs)

/-- processedMessages of ChatArea (lines 86-122): filter for the active
    target, sort by timestamp, then fold reactions. -/
def processMessages (t : ChatTarget) (msgs : List Message) : List Message :=
  (sortByTimestamp (filterMessages t msgs)).foldl foldStep []

/-- Payload of the send mutation (useSendMessage, store/index.ts
    lines 252-257). -/
structure SendData where
  text : String
  destination_id : Option String
  channel_index : Option Nat
  reply_id : Option Nat
deriving DecidableEq, Repr

/-- status.my_node_id with the JavaScript or-default to the string local
    (store/index.ts line 266): absent and empty are replaced. -/
def senderOf : Option String → String
  | Option.none => "local"
  | Option.some s => if s == "" then "local" else s

/-- The optimistic message appended by useSendMessage as soon as the
    send request succeeds (store/index.ts lines 263-274). -/
def optimisticMessage (pid : Nat) (myNodeId : Option String) (now : Nat)
    (d : SendData) : Message :=
  { id := pid
    packet_id := Option.some pid
    sender := senderOf myNodeId
    receiver := d.destination_id
    channel := match d.channel_index with
               | Option.some n => n
               | Option.none => 0
    text := d.text
    timestamp := now
    ack_status := AckStatus.pending
    is_outgoing := true
    reply_id := d.reply_id
    reactions := [] }

/-- The store effect of a successful send: addMessage of the optimistic
    record built from the response packet id. -/
def sendMessage (msgs : List Message) (myNodeId : Option String) (now : Nat)
    (d : SendData) (pid : Nat) : List Message :=
  addMessage msgs (optimisticMessage pid myNodeId now d)

/-- A path-trace result; only the originating node id matters to the
    claims (PathTraceResult.from). -/
structure TraceResult where
  from_ : String
deriving DecidableEq, Repr

/-- State of the NodeInfoPanel traceroute logic: the store result, the
    local timeout flag, the pending 60-second timer with the render-scope
    values its callback closed over, and the selected node id. -/
structure PanelState where
  tracerouteResult : Option TraceResult
  tracerouteTimeout : Bool
  timer : Option (Option TraceResult × String)
  selectedId : String
deriving DecidableEq, Repr

/-- handleTraceroute (NodeInfoPanel): clear the stored result and the
    timeout flag, fire the request, and start a 60-second timer whose
    callback closes over the current render's tracerouteResult and
    selectedNode.id values, which a later setState does not change. -/
def clickTraceroute (s : PanelState) : PanelState :=
  { s with
    tracerouteResult := Option.none
    tracerouteTimeout := false
    timer := Option.some (s.tracerouteResult, s.selectedId) }

/-- The 60-second timer elapses: the callback consults the captured
    render-scope result and selected id, and raises the timeout flag when
    the captured result is absent or from a different node. -/
def timerFire (s : PanelState) : PanelState :=
  match s.timer with
  | Option.none => s
  | Option.some (capturedResult, capturedId) =>
    { s with
      timer := Option.none
      tracerouteTimeout :=
        (match capturedResult with
         | Option.none => true
         | Option.some r => r.from_ != capturedId) ||
        s.tracerouteTimeout }

/-- A trace result arrives: setTracerouteResult stores it, and the panel
    effect cancels the timer and clears the timeout flag exactly when the
    result is from the selected node. -/
def resultArrives (s : PanelState) (r : TraceResult) : PanelState :=
  if r.from_ == s.selectedId then
    { s with
      tracerouteResult := Option.some r
      timer := Option.none
      tracerouteTimeout := false }
  else { s with tracerouteResult := Option.some r }

/-- The panel only presents a result whose from field matches the
    selected node (isTracerouteForThisNode). -/
def showsResultFor (s : PanelState) : Option String :=
  match s.tracerouteResult with
  | Option.some r => if r.from_ == s.selectedId then Option.some r.from_
                     else Option.none
  | Option.none => Option.none

/-! ### Helper lemmas about the message store -/

theorem mergeMsg_eq (old m : Message) : mergeMsg old m = m := rfl

theorem replaceByPid_eq_none (l : List Message) (m : Message)
    (h : ∀ y ∈ l, y.packet_id ≠ m.packet_id) :
    replaceByPid l m = Option.none := by
  induction l with
  | nil => rfl
  | cons x xs ih =>
    have hx : x.packet_id ≠ m.packet_id := h x (by simp)
    simp only [replaceByPid, beq_iff_eq, if_neg hx]
    rw [ih (fun y hy => h y (by simp [hy]))]

theorem replaceByPid_none_forall (l : List Message) (m : Message)
    (h : replaceByPid l m = Option.none) :
    ∀ y ∈ l, y.packet_id ≠ m.packet_id := by
  induction l with
  | nil => intro y hy; simp at hy
  | cons x xs ih =>
    intro y hy
    by_cases hx : x.packet_id = m.packet_id
    · simp only [replaceByPid, beq_iff_eq, if_pos hx] at h
      exact Option.noConfusion h
    · simp only [replaceByPid, beq_iff_eq, if_neg hx] at h
      rcases List.mem_cons.mp hy with h1 | h2
      · exact h1 ▸ hx
      · cases hrec : replaceByPid xs m with
        | some ys => rw [hrec] at h; exact absurd h (by simp)
        | none => exact ih hrec y h2

theorem replaceByPid_split (pre : List Message) (x : Message)
    (post : List Message) (m : Message)
    (hpre : ∀ y ∈ pre, y.packet_id ≠ m.packet_id)
    (hx : x.packet_id = m.packet_id) :
    replaceByPid (pre ++ x :: post) m =
      Option.some (pre ++ mergeMsg x m :: post) := by
  induction pre with
  | nil => simp [replaceByPid, beq_iff_eq, hx]
  | cons y ys ih =>
    have hy : y.packet_id ≠ m.packet_id := hpre y (by simp)
    have ih' := ih (fun z hz => hpre z (by simp [hz]))
    simp only [List.cons_append, replaceByPid, beq_iff_eq, if_neg hy,
      List.append_eq, ih']

theorem replaceByPid_map_pid (l ys : List Message) (m : Message)
    (h : replaceByPid l m = Option.some ys) :
    ys.map Message.packet_id = l.map Message.packet_id := by
  induction l generalizing ys with
  | nil => simp [replaceByPid] at h
  | cons x xs ih =>
    by_cases hx : x.packet_id = m.packet_id
    · simp only [replaceByPid, beq_iff_eq, if_pos hx] at h
      cases h
      simp [mergeMsg_eq, hx]
    · simp only [replaceByPid, beq_iff_eq, if_neg hx] at h
      cases hrec : replaceByPid xs m with
      | some zs =>
        rw [hrec] at h
        cases h
        simp [ih zs hrec]
      | none => rw [hrec] at h; exact absurd h (by simp)

theorem replaceByPid_idem (l ys : List Message) (m : Message)
    (h : replaceByPid l m = Option.some ys) :
    replaceByPid ys m = Option.some ys := by
  induction l generalizing ys with
  | nil => simp [replaceByPid] at h
  | cons x xs ih =>
    by_cases hx : x.packet_id = m.packet_id
    · simp only [replaceByPid, beq_iff_eq, if_pos hx] at h
      cases h
      simp [replaceByPid, mergeMsg_eq]
    · simp only [replaceByPid, beq_iff_eq, if_neg hx] at h
      cases hrec : replaceByPid xs m with
      | some zs =>
        rw [hrec] at h
        cases h
        simp only [replaceByPid, beq_iff_eq, if_neg hx]
        rw [ih zs hrec]
      | none => rw [hrec] at h; exact absurd h (by simp)

theorem any_id_eq_true_iff (l : List Message) (m : Message) :
    (l.any (fun x => x.id == m.id) = true) ↔ ∃ y ∈ l, y.id = m.id := by
  simp [List.any_eq_true]

theorem truthy_eq_false (pid : Option Nat) (h : ¬ truthy pid = true) :
    truthy pid = false := by
  cases htr : truthy pid with
  | true => exact absurd htr h
  | false => rfl

theorem addMessage_eq_merge (pre : List Message) (x : Message)
    (post : List Message) (m : Message)
    (htr : truthy m.packet_id = true)
    (hpre : ∀ y ∈ pre, y.packet_id ≠ m.packet_id)
    (hx : x.packet_id = m.packet_id) :
    addMessage (pre ++ x :: post) m = pre ++ mergeMsg x m :: post := by
  have hrep := replaceByPid_split pre x post m hpre hx
  simp [addMessage, htr, hrep]

theorem addMessage_eq_append (msgs : List Message) (m : Message)
    (h1 : truthy m.packet_id = false ∨
      ∀ y ∈ msgs, y.packet_id ≠ m.packet_id)
    (h2 : ∀ y ∈ msgs, y.id ≠ m.id) :
    addMessage msgs m = msgs ++ [m] := by
  have hany : ¬ (msgs.any (fun x => x.id == m.id) = true) := by
    rw [any_id_eq_true_iff]
    rintro ⟨y, hy, he⟩
    exact h2 y hy he
  rcases h1 with htr | hall
  · simp [addMessage, htr, hany]
  · by_cases htr : truthy m.packet_id = true
    · have hrep := replaceByPid_eq_none msgs m hall
      simp [addMessage, htr, hrep, hany]
    · simp [addMessage, truthy_eq_false m.packet_id htr, hany]

theorem addMessage_eq_discard (msgs : List Message) (m : Message)
    (h1 : truthy m.packet_id = false ∨
      ∀ y ∈ msgs, y.packet_id ≠ m.packet_id)
    (h2 : ∃ y ∈ msgs, y.id = m.id) :
    addMessage msgs m = msgs := by
  have hany : msgs.any (fun x => x.id == m.id) = true :=
    (any_id_eq_true_iff msgs m).mpr h2
  rcases h1 with htr | hall
  · simp [addMessage, htr, hany]
  · by_cases htr : truthy m.packet_id = true
    · have hrep := replaceByPid_eq_none msgs m hall
      simp [addMessage, htr, hrep, hany]
    · simp [addMessage, truthy_eq_false m.packet_id htr, hany]

theorem addMessage_idem (msgs : List Message) (m : Message) :
    addMessage (addMessage msgs m) m = addMessage msgs m := by
  by_cases htr : truthy m.packet_id = true
  · cases hrep : replaceByPid msgs m with
    | some ys =>
      have h1 : addMessage msgs m = ys := by simp [addMessage, htr, hrep]
      rw [h1]
      have h2 := replaceByPid_idem msgs ys m hrep
      simp [addMessage, htr, h2]
    | none =>
      have hforall := replaceByPid_none_forall msgs m hrep
      by_cases hid : msgs.any (fun x => x.id == m.id) = true
      · have h1 : addMessage msgs m = msgs := by
          simp [addMessage, htr, hrep, hid]
        rw [h1]
        exact h1
      · have h1 : addMessage msgs m = msgs ++ [m] := by
          simp [addMessage, htr, hrep, hid]
        rw [h1]
        have hrep2 : replaceByPid (msgs ++ [m]) m =
            Option.some (msgs ++ [mergeMsg m m]) :=
          replaceByPid_split msgs m [] m hforall rfl
        simp [addMessage, htr, hrep2, mergeMsg_eq]
  · have htr' := truthy_eq_false m.packet_id htr
    by_cases hid : msgs.any (fun x => x.id == m.id) = true
    · have h1 : addMessage msgs m = msgs := by simp [addMessage, htr', hid]
      rw [h1]
      exact h1
    · have h1 : addMessage msgs m = msgs ++ [m] := by
        simp [addMessage, htr', hid]
      rw [h1]
      simp [addMessage, htr', List.any_append]

/-- No two stored messages share the same truthy packet id. -/
def NoDupPid (l : List Message) : Prop :=
  List.Pairwise (fun a b => truthy a = true → a ≠ b)
    (l.map Message.packet_id)

theorem noDupPid_addMessage (msgs : List Message) (m : Message)
    (h : NoDupPid msgs) : NoDupPid (addMessage msgs m) := by
  by_cases htr : truthy m.packet_id = true
  · cases hrep : replaceByPid msgs m with
    | some ys =>
      have h1 : addMessage msgs m = ys := by simp [addMessage, htr, hrep]
      rw [h1]
      unfold NoDupPid
      rw [replaceByPid_map_pid msgs ys m hrep]
      exact h
    | none =>
      have hforall := replaceByPid_none_forall msgs m hrep
      by_cases hid : msgs.any (fun x => x.id == m.id) = true
      · have h1 : addMessage msgs m = msgs := by
          simp [addMessage, htr, hrep, hid]
        rw [h1]
        exact h
      · have h1 : addMessage msgs m = msgs ++ [m] := by
          simp [addMessage, htr, hrep, hid]
        rw [h1]
        unfold NoDupPid
        rw [List.map_append, List.pairwise_append]
        refine ⟨h, by simp, ?_⟩
        intro a ha b hb
        simp only [List.map_cons, List.map_nil, List.mem_singleton] at hb
        subst hb
        rcases List.mem_map.mp ha with ⟨y, hy, hpy⟩
        intro _
        rw [← hpy]
        exact hforall y hy
  · have htr' := truthy_eq_false m.packet_id htr
    by_cases hid : msgs.any (fun x => x.id == m.id) = true
    · have h1 : addMessage msgs m = msgs := by simp [addMessage, htr', hid]
      rw [h1]
      exact h
    · have h1 : addMessage msgs m = msgs ++ [m] := by
        simp [addMessage, htr', hid]
      rw [h1]
      unfold NoDupPid
      rw [List.map_append, List.pairwise_append]
      refine ⟨h, by simp, ?_⟩
      intro a ha b hb
      simp only [List.map_cons, List.map_nil, List.mem_singleton] at hb
      subst hb
      intro hta heq
      rw [heq, htr'] at hta
      exact Bool.noConfusion hta

/-! ### Helper lemmas about the node store, unread counters and reactions -/

theorem updateMessageAck_of_unknown (msgs : List Message) (packetId : Nat)
    (st : AckStatus)
    (h : ∀ x ∈ msgs, x.packet_id ≠ Option.some packetId) :
    updateMessageAck msgs packetId st = msgs := by
  induction msgs with
  | nil => rfl
  | cons x xs ih =>
    have hx : (x.packet_id == Option.some packetId) = false := by
      simp [h x (by simp)]
    have ih' := ih (fun y hy => h y (by simp [hy]))
    simp only [updateMessageAck] at ih'
    simp only [updateMessageAck, List.map_cons, hx, Bool.false_eq_true,
      if_false, ih']

theorem updateNode_of_no_match (nodes : List Node) (u : Node)
    (h : ∀ n ∈ nodes, nodeMatches n u = false) :
    updateNode nodes u = nodes ++ [u] := by
  induction nodes with
  | nil => rfl
  | cons x xs ih =>
    have hx : nodeMatches x u = false := h x (by simp)
    simp only [updateNode, hx, Bool.false_eq_true, if_false, List.cons_append]
    rw [ih (fun n hn => h n (by simp [hn]))]

theorem updateNode_split (pre : List Node) (x : Node) (post : List Node)
    (u : Node)
    (hpre : ∀ n ∈ pre, nodeMatches n u = false)
    (hx : nodeMatches x u = true) :
    updateNode (pre ++ x :: post) u = pre ++ mergeNode x u :: post := by
  induction pre with
  | nil => simp [updateNode, hx]
  | cons y ys ih =>
    have hy : nodeMatches y u = false := hpre y (by simp)
    have ih' := ih (fun n hn => hpre n (by simp [hn]))
    simp only [List.cons_append, updateNode, hy, Bool.false_eq_true,
      if_false, List.append_eq, ih']

theorem lookupChat_setChat_self (l : List (String × Int)) (key : String)
    (v : Int) : lookupChat (setChat l key v) key = Option.some v := by
  induction l with
  | nil => simp [setChat, lookupChat]
  | cons p rest ih =>
    rcases p with ⟨k, w⟩
    by_cases hk : (k == key) = true
    · simp [setChat, hk, lookupChat]
    · simp [setChat, hk, lookupChat, ih]

theorem lookupChat_removeChat (l : List (String × Int)) (key : String) :
    lookupChat (removeChat l key) key = Option.none := by
  induction l with
  | nil => rfl
  | cons p rest ih =>
    by_cases hk : p.1 == key
    · simpa [removeChat, hk] using ih
    · simp only [removeChat, List.filter_cons, hk]
      simpa [lookupChat, hk, removeChat] using ih

theorem addReaction_dedup (rs : List (String × List String))
    (emoji sender : String) (ss : List String)
    (hss : lookupReaction rs emoji = Option.some ss) (hmem : sender ∈ ss) :
    addReaction rs emoji sender = rs := by
  induction rs with
  | nil => simp [lookupReaction] at hss
  | cons p rest ih =>
    rcases p with ⟨e, l⟩
    by_cases he : e == emoji
    · simp only [lookupReaction, if_pos he] at hss
      cases hss
      simp [addReaction, he, hmem]
    · simp only [lookupReaction, if_neg he] at hss
      simp only [addReaction, if_neg he, List.cons.injEq, true_and]
      exact ih hss

/-! ### Sample values used by witnesses and counterexamples -/

/-- Build a message with empty reactions and default flags. -/
def mkMsg (id : Nat) (pid : Option Nat) (sender : String)
    (receiver : Option String) (channel : Nat) (text : String) (ts : Nat)
    (st : AckStatus) : Message :=
  { id := id, packet_id := pid, sender := sender, receiver := receiver
    channel := channel, text := text, timestamp := ts, ack_status := st
    is_outgoing := false, reply_id := Option.none, reactions := [] }

def msgA5 : Message :=
  mkMsg 1 (Option.some 5) "nodeA" Option.none 0 "old" 10 AckStatus.pending

def msgB5 : Message :=
  mkMsg 2 (Option.some 5) "nodeB" Option.none 0 "new" 11 AckStatus.ack

def helloMsg : Message :=
  mkMsg 1 Option.none "s1" Option.none 0 "hello" 1 AckStatus.received

def smileMsg : Message :=
  mkMsg 2 Option.none "s2" Option.none 0 "😀" 2 AckStatus.received

def nodeA : Node :=
  { id := "!a", num := 1, user := Option.none
    position := Option.some { latitude := 10, longitude := 20,
                              altitude := Option.none }
    deviceMetrics := Option.none, lastHeard := Option.none
    snr := Option.none }

def nodeAMetrics : Node :=
  { id := "!a", num := 1, user := Option.none, position := Option.none
    deviceMetrics := Option.some { batteryLevel := Option.some 80
                                   voltage := Option.none
                                   channelUtilization := Option.none
                                   airUtilTx := Option.none }
    lastHeard := Option.none, snr := Option.none }

/-! ### The claims -/

/-- Claim C1, counterexample to the statement as written: a packet_id of 0
    is non-null but falsy in JavaScript, so the merge branch of addMessage
    is skipped; two events with packet_id 0 and distinct ids are both
    appended, and the store ends up holding two messages with the same
    non-null packet_id instead of merging the second into the first. -/
theorem addMessage_zero_pid_appends_duplicate :
    (mkMsg 2 (Option.some 0) "a" Option.none 0 "y" 1
        AckStatus.pending).packet_id = Option.some 0 ∧
    (mkMsg 1 (Option.some 0) "a" Option.none 0 "x" 0
        AckStatus.pending).packet_id = Option.some 0 ∧
    addMessage
        (addMessage []
          (mkMsg 1 (Option.some 0) "a" Option.none 0 "x" 0
            AckStatus.pending))
        (mkMsg 2 (Option.some 0) "a" Option.none 0 "y" 1
          AckStatus.pending) =
      [mkMsg 1 (Option.some 0) "a" Option.none 0 "x" 0 AckStatus.pending,
       mkMsg 2 (Option.some 0) "a" Option.none 0 "y" 1 AckStatus.pending] := by
  decide

/-- Claim C1 (amended: non-null becomes truthy, that is non-null and
    nonzero): a message event whose packet_id is truthy and equal to the
    packet_id of an already-stored message is field-merged over the first
    such record without appending; otherwise an event whose id matches an
    existing message is discarded; otherwise it is appended.  Applying the
    identical event twice equals applying it once, and addMessage
    preserves the at-most-one-message-per-truthy-packet_id invariant. -/
theorem addMessage_merge_discard_append_spec (msgs pre post : List Message)
    (x m : Message) :
    (truthy m.packet_id = true → msgs = pre ++ x :: post →
      (∀ y ∈ pre, y.packet_id ≠ m.packet_id) →
      x.packet_id = m.packet_id →
      addMessage msgs m = pre ++ mergeMsg x m :: post ∧
      (addMessage msgs m).length = msgs.length) ∧
    ((truthy m.packet_id = false ∨
        ∀ y ∈ msgs, y.packet_id ≠ m.packet_id) →
      (∃ y ∈ msgs, y.id = m.id) → addMessage msgs m = msgs) ∧
    ((truthy m.packet_id = false ∨
        ∀ y ∈ msgs, y.packet_id ≠ m.packet_id) →
      (∀ y ∈ msgs, y.id ≠ m.id) → addMessage msgs m = msgs ++ [m]) ∧
    addMessage (addMessage msgs m) m = addMessage msgs m ∧
    (NoDupPid msgs → NoDupPid (addMessage msgs m)) := by
  refine ⟨?_, addMessage_eq_discard msgs m, addMessage_eq_append msgs m,
    addMessage_idem msgs m, noDupPid_addMessage msgs m⟩
  intro htr hdecomp hpre hx
  subst hdecomp
  have hmerge := addMessage_eq_merge pre x post m htr hpre hx
  refine ⟨hmerge, ?_⟩
  rw [hmerge]
  simp

/-- Witness for claim C1: a second event with the truthy packet_id 5 is
    merged over the stored record in place. -/
theorem addMessage_merge_discard_append_spec_witness :
    addMessage [msgA5] msgB5 = [mergeMsg msgA5 msgB5] ∧
    addMessage (addMessage [msgA5] msgB5) msgB5 =
      addMessage [msgA5] msgB5 := by
  have h := addMessage_merge_discard_append_spec [msgA5] [] [] msgA5 msgB5
  exact ⟨(h.1 (by decide) rfl (by simp) (by decide)).1, h.2.2.2.1⟩

/-- Claim C2: updateNode locates an existing node by id or num and merges
    the partial update over it field by field; every field the incoming
    update omits keeps its stored value (in particular a known position
    survives a metrics-only update), and a node with no match is
    appended. -/
theorem updateNode_field_merge_spec (nodes pre post : List Node)
    (x u : Node) :
    ((∀ n ∈ nodes, nodeMatches n u = false) →
      updateNode nodes u = nodes ++ [u]) ∧
    (nodes = pre ++ x :: post →
      (∀ n ∈ pre, nodeMatches n u = false) → nodeMatches x u = true →
      updateNode nodes u = pre ++ mergeNode x u :: post ∧
      (updateNode nodes u).length = nodes.length ∧
      (u.position = Option.none →
        (mergeNode x u).position = x.position) ∧
      (u.deviceMetrics = Option.none →
        (mergeNode x u).deviceMetrics = x.deviceMetrics) ∧
      (u.user = Option.none → (mergeNode x u).user = x.user) ∧
      (u.lastHeard = Option.none →
        (mergeNode x u).lastHeard = x.lastHeard) ∧
      (u.snr = Option.none → (mergeNode x u).snr = x.snr) ∧
      (∀ p, u.position = Option.some p →
        (mergeNode x u).position = Option.some p) ∧
      (∀ dm, u.deviceMetrics = Option.some dm →
        (mergeNode x u).deviceMetrics = Option.some dm)) := by
  refine ⟨updateNode_of_no_match nodes u, ?_⟩
  intro hdecomp hpre hx
  subst hdecomp
  have hsplit := updateNode_split pre x post u hpre hx
  refine ⟨hsplit, by rw [hsplit]; simp, ?_, ?_, ?_, ?_, ?_, ?_, ?_⟩
  · intro h; simp [mergeNode, keepOld, h]
  · intro h; simp [mergeNode, keepOld, h]
  · intro h; simp [mergeNode, keepOld, h]
  · intro h; simp [mergeNode, keepOld, h]
  · intro h; simp [mergeNode, keepOld, h]
  · intro p h; simp [mergeNode, keepOld, h]
  · intro dm h; simp [mergeNode, keepOld, h]

/-- Witness for claim C2: a metrics-only update on a node with a known
    position merges in place and keeps the position. -/
theorem updateNode_field_merge_spec_witness :
    updateNode [nodeA] nodeAMetrics = [mergeNode nodeA nodeAMetrics] ∧
    (mergeNode nodeA nodeAMetrics).position = nodeA.position ∧
    (mergeNode nodeA nodeAMetrics).deviceMetrics =
      nodeAMetrics.deviceMetrics := by
  have h :=
    (updateNode_field_merge_spec [nodeA] [] [] nodeA nodeAMetrics).2
      rfl (by simp) (by decide)
  exact ⟨h.1, h.2.2.1 (by decide), h.2.2.2.2.2.2.2.2
    { batteryLevel := Option.some 80, voltage := Option.none
      channelUtilization := Option.none, airUtilTx := Option.none }
    (by decide)⟩

/-- Claim C3, counterexample to the statement as written: an ack-status
    update for packet_id 7 applied to a store holding no such message is a
    no-op, and the later full message event is simply appended carrying
    its own ack_status; when that event says pending, the stored status is
    pending — the earlier ack is not remembered by the store. -/
theorem ack_before_message_pending_counterexample :
    updateMessageAck [] 7 AckStatus.ack = [] ∧
    addMessage (updateMessageAck [] 7 AckStatus.ack)
        (mkMsg 7 (Option.some 7) "peer" Option.none 0 "hi" 5
          AckStatus.pending) =
      [mkMsg 7 (Option.some 7) "peer" Option.none 0 "hi" 5
        AckStatus.pending] ∧
    (mkMsg 7 (Option.some 7) "peer" Option.none 0 "hi" 5
        AckStatus.pending).ack_status = AckStatus.pending := by
  decide

/-- Claim C3 (amended): an ack-status update for packet_id 7 applied
    before any message bears that packet_id leaves the store unchanged
    (the ack is dropped, not queued), and the later full message event is
    appended carrying its own ack_status; the final stored status of the
    packet-7 message therefore equals the ack_status the arriving event
    itself carries, and reflects the earlier ack only when the event
    carries the acked status. -/
theorem ack_before_message_drop_spec (msgs : List Message) (a : AckStatus)
    (m : Message)
    (h7 : ∀ x ∈ msgs, x.packet_id ≠ Option.some 7)
    (hm : m.packet_id = Option.some 7)
    (hid : ∀ x ∈ msgs, x.id ≠ m.id) :
    updateMessageAck msgs 7 a = msgs ∧
    addMessage (updateMessageAck msgs 7 a) m = msgs ++ [m] ∧
    ∀ x ∈ addMessage (updateMessageAck msgs 7 a) m,
      x.packet_id = Option.some 7 → x.ack_status = m.ack_status := by
  have hnoop := updateMessageAck_of_unknown msgs 7 a h7
  have happ : addMessage msgs m = msgs ++ [m] := by
    refine addMessage_eq_append msgs m (Or.inr ?_) hid
    intro y hy
    rw [hm]
    exact h7 y hy
  refine ⟨hnoop, by rw [hnoop, happ], ?_⟩
  intro x hx hpid
  rw [hnoop, happ] at hx
  rcases List.mem_append.mp hx with hin | hone
  · exact absurd hpid (h7 x hin)
  · rw [List.mem_singleton.mp hone]

/-- Witness for claim C3: with an empty store, the dropped ack followed by
    an event that carries the acked status ends with that status. -/
theorem ack_before_message_drop_spec_witness :
    addMessage (updateMessageAck [] 7 AckStatus.ack)
        (mkMsg 7 (Option.some 7) "peer" Option.none 0 "hi" 5
          AckStatus.ack) =
      [mkMsg 7 (Option.some 7) "peer" Option.none 0 "hi" 5
        AckStatus.ack] := by
  have h := ack_before_message_drop_spec [] AckStatus.ack
    (mkMsg 7 (Option.some 7) "peer" Option.none 0 "hi" 5 AckStatus.ack)
    (by simp) (by decide) (by simp)
  exact h.2.1

/-- Claim C4: an ack-status update whose packet_id matches no stored
    message leaves the message collection unchanged — the unknown ack is
    dropped and alters nothing. -/
theorem updateMessageAck_unknown_noop (msgs : List Message) (pid : Nat)
    (st : AckStatus)
    (h : ∀ x ∈ msgs, x.packet_id ≠ Option.some pid) :
    updateMessageAck msgs pid st = msgs :=
  updateMessageAck_of_unknown msgs pid st h

/-- Witness for claim C4: an ack for the unseen packet_id 9 leaves a
    one-message store untouched. -/
theorem updateMessageAck_unknown_noop_witness :
    updateMessageAck [msgA5] 9 AckStatus.ack = [msgA5] := by
  exact updateMessageAck_unknown_noop [msgA5] 9 AckStatus.ack (by decide)

theorem receiverFalsy_iff (r : Option String) :
    receiverFalsy r = true ↔ r = Option.none ∨ r = Option.some "" := by
  cases r with
  | none => simp [receiverFalsy]
  | some s => simp [receiverFalsy]

theorem channelPred_iff (idx : Nat) (m : Message) :
    channelPred idx m = true ↔
      m.channel = idx ∧
        (m.receiver = Option.none ∨ m.receiver = Option.some "" ∨
         m.receiver = Option.some "^all" ∨
         m.receiver = Option.some "broadcast") := by
  simp [channelPred, Bool.and_eq_true, Bool.or_eq_true, receiverFalsy_iff,
    beq_iff_eq, or_assoc]

theorem dmPred_iff (nodeId : String) (m : Message) :
    dmPred nodeId m = true ↔
      (m.sender = nodeId ∨ m.receiver = Option.some nodeId) ∧
        ¬(m.receiver = Option.none ∨ m.receiver = Option.some "") ∧
        m.receiver ≠ Option.some "^all" ∧
        m.receiver ≠ Option.some "broadcast" := by
  have hf : receiverFalsy m.receiver = false ↔
      ¬(m.receiver = Option.none ∨ m.receiver = Option.some "") := by
    rw [← Bool.not_eq_true, receiverFalsy_iff]
  simp only [dmPred, Bool.and_eq_true, Bool.or_eq_true, beq_iff_eq,
    bne_iff_ne, Bool.not_eq_true', hf, not_or]
  tauto

/-- Claim C5, counterexample to the statement as written: the empty-string
    receiver is concrete (present and not a broadcast sentinel), yet it is
    falsy in JavaScript, so the message is kept by the broadcast channel-0
    projection and rejected by the direct projection for that receiver. -/
theorem empty_receiver_partition_counterexample :
    (mkMsg 1 Option.none "s1" (Option.some "") 0 "t" 1
        AckStatus.received).receiver = Option.some "" ∧
    ("" : String) ≠ "^all" ∧ ("" : String) ≠ "broadcast" ∧
    filterMessages (ChatTarget.channel 0)
        [mkMsg 1 Option.none "s1" (Option.some "") 0 "t" 1
          AckStatus.received] =
      [mkMsg 1 Option.none "s1" (Option.some "") 0 "t" 1
        AckStatus.received] ∧
    filterMessages (ChatTarget.dm "")
        [mkMsg 1 Option.none "s1" (Option.some "") 0 "t" 1
          AckStatus.received] = [] := by
  decide

/-- Claim C5 (amended: a concrete receiver must also be non-empty, and the
    channel projection additionally keeps empty-string receivers): a
    channel-0 message with a non-empty, non-sentinel receiver appears in
    the direct projection for that receiver (and for its sender) and not
    in the broadcast channel-0 projection; a channel-target projection
    keeps exactly the messages on that channel index whose receiver is
    absent, empty, or a broadcast sentinel. -/
theorem conversation_partition_spec (msgs : List Message) (idx : Nat) :
    (∀ m r, m.channel = 0 → m.receiver = Option.some r → r ≠ "" →
      r ≠ "^all" → r ≠ "broadcast" → m ∈ msgs →
      m ∈ filterMessages (ChatTarget.dm r) msgs ∧
      m ∈ filterMessages (ChatTarget.dm m.sender) msgs ∧
      m ∉ filterMessages (ChatTarget.channel 0) msgs) ∧
    (∀ x, x ∈ filterMessages (ChatTarget.channel idx) msgs ↔
      x ∈ msgs ∧ x.channel = idx ∧
        (x.receiver = Option.none ∨ x.receiver = Option.some "" ∨
         x.receiver = Option.some "^all" ∨
         x.receiver = Option.some "broadcast")) := by
  constructor
  · intro m r hch hrecv hne hall hbc hmem
    have hdm : dmPred r m = true := by
      rw [dmPred_iff]
      refine ⟨Or.inr (by rw [hrecv]), ?_, ?_, ?_⟩
      · rw [hrecv]
        simp [hne]
      · rw [hrecv]
        simp [hall]
      · rw [hrecv]
        simp [hbc]
    have hdms : dmPred m.sender m = true := by
      rw [dmPred_iff]
      refine ⟨Or.inl rfl, ?_, ?_, ?_⟩
      · rw [hrecv]
        simp [hne]
      · rw [hrecv]
        simp [hall]
      · rw [hrecv]
        simp [hbc]
    refine ⟨List.mem_filter.mpr ⟨hmem, hdm⟩,
      List.mem_filter.mpr ⟨hmem, hdms⟩, ?_⟩
    intro hx
    have hc := (List.mem_filter.mp hx).2
    rw [channelPred_iff] at hc
    rcases hc.2 with h | h | h | h
    · rw [hrecv] at h
      exact Option.noConfusion h
    · rw [hrecv] at h
      exact hne (Option.some.inj h)
    · rw [hrecv] at h
      exact hall (Option.some.inj h)
    · rw [hrecv] at h
      exact hbc (Option.some.inj h)
  · intro x
    rw [show filterMessages (ChatTarget.channel idx) msgs =
      msgs.filter (channelPred idx) from rfl, List.mem_filter,
      channelPred_iff]

/-- Witness for claim C5: a channel-0 message to the concrete peer id
    appears in that peer's direct projection and not in the channel-0
    projection. -/
theorem conversation_partition_spec_witness :
    mkMsg 3 Option.none "s1" (Option.some "peer") 0 "hi" 1
        AckStatus.received ∈
      filterMessages (ChatTarget.dm "peer")
        [mkMsg 3 Option.none "s1" (Option.some "peer") 0 "hi" 1
          AckStatus.received] ∧
    mkMsg 3 Option.none "s1" (Option.some "peer") 0 "hi" 1
        AckStatus.received ∉
      filterMessages (ChatTarget.channel 0)
        [mkMsg 3 Option.none "s1" (Option.some "peer") 0 "hi" 1
          AckStatus.received] := by
  have h :=
    (conversation_partition_spec
        [mkMsg 3 Option.none "s1" (Option.some "peer") 0 "hi" 1
          AckStatus.received] 0).1
      (mkMsg 3 Option.none "s1" (Option.some "peer") 0 "hi" 1
        AckStatus.received)
      "peer" rfl rfl (by decide) (by decide) (by decide) (by simp)
  exact ⟨h.1, h.2.2⟩

theorem updateLast_length (f : Message → Message) (l : List Message) :
    (updateLast f l).length = l.length := by
  induction l with
  | nil => rfl
  | cons x xs ih =>
    cases xs with
    | nil => rfl
    | cons y ys =>
      show (x :: updateLast f (y :: ys)).length = (x :: y :: ys).length
      simp only [List.length_cons]
      rw [ih]
      simp

/-- Claim C6, counterexample to the statement as written: an emoji-only
    message with no preceding retained message is not dropped — the else
    branch of the fold pushes it as a regular display message, so
    projecting a sequence containing only an emoji-only message yields one
    display message, not zero. -/
theorem lone_emoji_displayed_counterexample :
    isEmojiOnly (jsTrim (mkMsg 1 Option.none "s2" Option.none 0 "😀" 5
        AckStatus.received).text) = true ∧
    processMessages (ChatTarget.channel 0)
        [mkMsg 1 Option.none "s2" Option.none 0 "😀" 5
          AckStatus.received] =
      [{ mkMsg 1 Option.none "s2" Option.none 0 "😀" 5
          AckStatus.received with reactions := [] }] := by
  decide

/-- Claim C6 (amended: an emoji-only message with no preceding retained
    message is emitted as its own display message with an empty reactions
    map rather than dropped): in the fold over the timestamp-sorted
    filtered sequence, an emoji-only message with a preceding retained
    message is folded into the last retained message's reactions map
    (de-duplicating senders per emoji) without growing the output, an
    emoji-only message seen on an empty output becomes a display message
    of its own, and the hello-then-emoji example projects to exactly one
    display message carrying the reaction. -/
theorem reaction_folding_spec :
    (∀ acc m, isEmojiOnly (jsTrim m.text) = true → acc ≠ [] →
      foldStep acc m = updateLast (attachReaction m) acc ∧
      (foldStep acc m).length = acc.length) ∧
    (∀ acc m, isEmojiOnly (jsTrim m.text) = true → acc = [] →
      foldStep acc m = [{ m with reactions := [] }]) ∧
    (∀ rs e s ss, lookupReaction rs e = Option.some ss → s ∈ ss →
      addReaction rs e s = rs) ∧
    processMessages (ChatTarget.channel 0) [helloMsg, smileMsg] =
      [{ helloMsg with reactions := [("😀", ["s2"])] }] := by
  refine ⟨?_, ?_, addReaction_dedup, by decide⟩
  · intro acc m hm hne
    have hempty : acc.isEmpty = false := by
      cases acc with
      | nil => exact absurd rfl hne
      | cons a as => rfl
    constructor
    · simp [foldStep, hm, hempty]
    · simp [foldStep, hm, hempty, updateLast_length]
  · intro acc m hm hacc
    subst hacc
    simp [foldStep]

/-- Witness for claim C6: folding the emoji reaction onto a one-message
    output keeps the output length at one. -/
theorem reaction_folding_spec_witness :
    (foldStep [{ helloMsg with reactions := [] }] smileMsg).length = 1 := by
  have h := reaction_folding_spec.1 [{ helloMsg with reactions := [] }]
    smileMsg (by decide) (by simp)
  rw [h.2]
  rfl

/-- Claim C7: a successful send with a fresh, truthy packet id appends
    exactly one optimistic message with pending status and the outgoing
    flag, and a later authoritative event with the same packet_id merges
    into that record in place, leaving the store size unchanged and
    installing the event's ack_status. -/
theorem optimistic_send_spec (msgs : List Message)
    (myNodeId : Option String) (now : Nat) (d : SendData) (pid : Nat)
    (hp : 0 < pid)
    (hfresh : ∀ x ∈ msgs, x.packet_id ≠ Option.some pid ∧ x.id ≠ pid) :
    sendMessage msgs myNodeId now d pid =
      msgs ++ [optimisticMessage pid myNodeId now d] ∧
    (optimisticMessage pid myNodeId now d).ack_status =
      AckStatus.pending ∧
    (optimisticMessage pid myNodeId now d).is_outgoing = true ∧
    ∀ ev : Message, ev.packet_id = Option.some pid →
      addMessage (msgs ++ [optimisticMessage pid myNodeId now d]) ev =
        msgs ++ [mergeMsg (optimisticMessage pid myNodeId now d) ev] ∧
      (addMessage (msgs ++ [optimisticMessage pid myNodeId now d])
          ev).length =
        (msgs ++ [optimisticMessage pid myNodeId now d]).length ∧
      (mergeMsg (optimisticMessage pid myNodeId now d) ev).ack_status =
        ev.ack_status := by
  have hpid0 : pid ≠ 0 := Nat.pos_iff_ne_zero.mp hp
  have happ : sendMessage msgs myNodeId now d pid =
      msgs ++ [optimisticMessage pid myNodeId now d] := by
    refine addMessage_eq_append msgs (optimisticMessage pid myNodeId now d)
      (Or.inr ?_) ?_
    · intro y hy
      exact (hfresh y hy).1
    · intro y hy
      exact (hfresh y hy).2
  refine ⟨happ, rfl, rfl, ?_⟩
  intro ev hev
  have htrev : truthy ev.packet_id = true := by
    rw [hev]
    simp [truthy, hpid0]
  have hx : (optimisticMessage pid myNodeId now d).packet_id =
      ev.packet_id := by simp [optimisticMessage, hev]
  have hmerge := addMessage_eq_merge msgs
    (optimisticMessage pid myNodeId now d) [] ev htrev
    (fun y hy => by rw [hev]; exact (hfresh y hy).1) hx
  refine ⟨hmerge, ?_, rfl⟩
  rw [hmerge]
  simp

def sendHi : SendData :=
  { text := "hi", destination_id := Option.none
    channel_index := Option.some 0, reply_id := Option.none }

/-- Witness for claim C7: sending with packet id 42 appends the pending
    optimistic record, and the authoritative ack event merges in place. -/
theorem optimistic_send_spec_witness :
    sendMessage [] (Option.some "!me") 5 sendHi 42 =
      [optimisticMessage 42 (Option.some "!me") 5 sendHi] ∧
    addMessage [optimisticMessage 42 (Option.some "!me") 5 sendHi]
        (mkMsg 99 (Option.some 42) "!me" Option.none 0 "hi" 6
          AckStatus.ack) =
      [mergeMsg (optimisticMessage 42 (Option.some "!me") 5 sendHi)
        (mkMsg 99 (Option.some 42) "!me" Option.none 0 "hi" 6
          AckStatus.ack)] := by
  have h := optimistic_send_spec [] (Option.some "!me") 5 sendHi 42
    (by decide) (by simp)
  exact ⟨h.1, (h.2.2.2 (mkMsg 99 (Option.some 42) "!me" Option.none 0
    "hi" 6 AckStatus.ack) rfl).1⟩

theorem getUnread_increment (s : UnreadState) (k : String) :
    getUnreadForChat (incrementUnreadForChat s k) k =
      getUnreadForChat s k + 1 := by
  simp [incrementUnreadForChat, getUnreadForChat, lookupChat_setChat_self]

/-- Claim C8: three per-chat increments on a key with no unread messages
    bring that key's count to 3 and the global total up by 3; the per-chat
    reset then zeroes the key and lowers the global total by exactly 3. -/
theorem unread_three_then_reset_spec (s : UnreadState) (k : String)
    (h0 : getUnreadForChat s k = 0) (h1 : 0 ≤ s.unreadCount) :
    getUnreadForChat
        (incrementUnreadForChat (incrementUnreadForChat
          (incrementUnreadForChat s k) k) k) k = 3 ∧
    (incrementUnreadForChat (incrementUnreadForChat
        (incrementUnreadForChat s k) k) k).unreadCount =
      s.unreadCount + 3 ∧
    getUnreadForChat
        (resetUnreadForChat
          (incrementUnreadForChat (incrementUnreadForChat
            (incrementUnreadForChat s k) k) k) k) k = 0 ∧
    (resetUnreadForChat
        (incrementUnreadForChat (incrementUnreadForChat
          (incrementUnreadForChat s k) k) k) k).unreadCount =
      s.unreadCount := by
  have g3 : getUnreadForChat
      (incrementUnreadForChat (incrementUnreadForChat
        (incrementUnreadForChat s k) k) k) k = 3 := by
    rw [getUnread_increment, getUnread_increment, getUnread_increment, h0]
    omega
  have c3 : (incrementUnreadForChat (incrementUnreadForChat
      (incrementUnreadForChat s k) k) k).unreadCount =
      s.unreadCount + 3 := by
    simp [incrementUnreadForChat]
    omega
  refine ⟨g3, c3, ?_, ?_⟩
  · simp [resetUnreadForChat, getUnreadForChat, lookupChat_removeChat]
  · show max 0 _ = s.unreadCount
    rw [g3, c3]
    have harith : s.unreadCount + 3 - 3 = s.unreadCount := by omega
    rw [harith]
    exact max_eq_right h1

/-- Witness for claim C8: from the empty unread state, three increments
    for one conversation key and a reset restore a zero global total. -/
theorem unread_three_then_reset_spec_witness :
    getUnreadForChat
        (incrementUnreadForChat (incrementUnreadForChat
          (incrementUnreadForChat { unreadCount := 0, unreadPerChat := [] }
            "channel:0") "channel:0") "channel:0") "channel:0" = 3 ∧
    (resetUnreadForChat
        (incrementUnreadForChat (incrementUnreadForChat
          (incrementUnreadForChat { unreadCount := 0, unreadPerChat := [] }
            "channel:0") "channel:0") "channel:0")
        "channel:0").unreadCount = 0 := by
  have h := unread_three_then_reset_spec
    { unreadCount := 0, unreadPerChat := [] } "channel:0" (by decide)
    (by decide)
  exact ⟨h.1, h.2.2.2⟩

/-- Claim C9 is refuted on the code as a bug: re-requesting a trace for
    node A while a previous result from A is still the render-scope value
    leaves the timeout flag unset when the 60-second bound elapses with no
    new result — the timer callback closes over the stale pre-request
    result and skips setTracerouteTimeout(true).  The first conjunct
    evaluates that failing run (final state: no result, no timeout
    presented); the second shows the intended behavior on a fresh request
    with no captured result, where the timeout is presented. -/
theorem traceroute_stale_timeout_eval :
    timerFire (clickTraceroute
        (resultArrives
          { tracerouteResult := Option.none, tracerouteTimeout := false
            timer := Option.none, selectedId := "A" }
          { from_ := "A" })) =
      { tracerouteResult := Option.none, tracerouteTimeout := false
        timer := Option.none, selectedId := "A" } ∧
    timerFire (clickTraceroute
        { tracerouteResult := Option.none, tracerouteTimeout := false
          timer := Option.none, selectedId := "A" }) =
      { tracerouteResult := Option.none, tracerouteTimeout := true
        timer := Option.none, selectedId := "A" } := by
  decide

/-- Claim C10: every unread operation preserves a non-negative global
    total, and the per-chat reset clamps at zero even when the global
    total is smaller than the per-chat count being removed. -/
theorem unread_nonneg_spec (s : UnreadState) (k : String) :
    (0 ≤ s.unreadCount →
      0 ≤ (incrementUnread s).unreadCount ∧
      0 ≤ (incrementUnreadForChat s k).unreadCount) ∧
    0 ≤ (resetUnread s).unreadCount ∧
    0 ≤ (resetUnreadForChat s k).unreadCount ∧
    (s.unreadCount < getUnreadForChat s k →
      (resetUnreadForChat s k).unreadCount = 0) := by
  refine ⟨?_, by simp [resetUnread], ?_, ?_⟩
  · intro h
    constructor
    · simp only [incrementUnread]
      omega
    · simp only [incrementUnreadForChat]
      omega
  · exact le_max_left 0 _
  · intro h
    show max 0 (s.unreadCount - getUnreadForChat s k) = 0
    apply max_eq_left
    omega

/-- Witness for claim C10: a state with global total 1 and a per-chat
    count of 5 resets to a clamped zero, not a negative total. -/
theorem unread_nonneg_spec_witness :
    (resetUnreadForChat { unreadCount := 1, unreadPerChat := [("k", 5)] }
        "k").unreadCount = 0 ∧
    0 ≤ (incrementUnread
        { unreadCount := 1, unreadPerChat := [("k", 5)] }).unreadCount := by
  have h := unread_nonneg_spec
    { unreadCount := 1, unreadPerChat := [("k", 5)] } "k"
  exact ⟨h.2.2.2 (by decide), (h.1 (by decide)).1⟩
